import Mathlib

/-!
Verification of the co-clustering collaborative-filtering estimator
(`core/co_clustering.go`) against its natural-language specification.

Floating-point values are embedded as `Option ℚ`: `none` models the IEEE
NaN sentinel used by the source for "unobserved" / "empty mean" cells, and
`some q` a finite value.  All divisions in the source are of the form
`acc / count` where `count = 0` forces `acc = 0` (both start at zero and
are bumped together), so division by a zero count is exactly the `0/0 = NaN`
case and is modelled by `none`; no infinities arise.  Rational arithmetic
stands in for `float64` arithmetic: every claim under study is about which
cells are read, skipped or NaN, never about rounding.
-/

attribute [local semireducible] Rat.add Rat.mul Rat.inv Rat.sub

namespace CoClust

/-- Numeric cell: `some q` is a finite float, `none` is NaN. -/
abbrev F := Option ℚ

/-- Addition with NaN propagation. -/
def fAdd : F → F → F
  | some a, some b => some (a + b)
  | _, _ => none

/-- Subtraction with NaN propagation. -/
def fSub : F → F → F
  | some a, some b => some (a - b)
  | _, _ => none

/-- Multiplication with NaN propagation. -/
def fMul : F → F → F
  | some a, some b => some (a * b)
  | _, _ => none

/-- Division of an accumulator by a count, as in the source's
`dst[g] /= count[g]` steps: a zero count yields `0/0`, i.e. NaN. -/
def fDivCount (x : F) (n : Nat) : F :=
  if n = 0 then none else
    match x with
    | some a => some (a / (n : ℚ))
    | none => none

/-- Rating observation after identifier interning: `IdRating` from the
repository (field `Id` is the dense index of the other axis). -/
structure IdRating where
  id : Nat
  rating : ℚ
  deriving DecidableEq, Repr

/-- Training set snapshot (spec §3): counts, global mean, the two adjacency
views, and the two identifier maps (external ids in first-seen order). -/
structure TrainSet where
  userCount : Nat
  itemCount : Nat
  globalMean : ℚ
  userRatings : List (List IdRating)
  itemRatings : List (List IdRating)
  userIds : List Int
  itemIds : List Int
  deriving DecidableEq, Repr

/-- Modelled from the spec: the identifier map's read-only lookup
(`ToDenseId`); the map itself lives outside `src/`.  External identifiers
are interned in first-seen order, so the dense index of `x` is its position
in the insertion-order list; an unseen identifier resolves to the sentinel
`UNKNOWN`, modelled by `none` (the source's `NewId`). -/
def toDenseId (ids : List Int) (x : Int) : Option Nat :=
  ids.findIdx? (fun y => y == x)

/-- Modelled from the spec: `means` (numeric utilities, not under `src/`);
per-row arithmetic mean of the ratings, NaN for an empty row. -/
def means (idRatings : List (List IdRating)) : List F :=
  idRatings.map (fun rs =>
    fDivCount (some (rs.map (fun ir => ir.rating)).sum) rs.length)

/-- Modelled from the spec: linear congruential step of the portable seeded
generator (numeric utilities §4.3; the generator is not under `src/`). -/
def lcgNext (x : Nat) : Nat := (1103515245 * x + 12345) % 2 ^ 31

/-- Modelled from the spec: `MakeUniformVectorInt` draws `n` integers in
`[lo, hi)` from the seeded generator and returns the advanced generator
state; the sequence is fully determined by the seed. -/
def MakeUniformVectorInt (seed n lo hi : Nat) : List Nat × Nat :=
  match n with
  | 0 => ([], seed)
  | m + 1 =>
    let s := lcgNext seed
    let rest := MakeUniformVectorInt s m lo hi
    ((lo + s % (hi - lo)) :: rest.1, rest.2)

/-- Mean rating over the observations whose entity is in cluster `g`
(`clusterMean`, lines 158-168: accumulate `dst[cluster] += rating` and a
count over every `(id, cluster)` row, then divide elementwise). -/
def clusterMean (clusters : List Nat) (idRatings : List (List IdRating))
    (g : Nat) : F :=
  let cell := ((clusters.zip idRatings).filter (fun p => p.1 == g)).flatMap
    (fun p => p.2.map (fun ir => ir.rating))
  fDivCount (some cell.sum) cell.length

/-- Mean rating over the observations in block `(g, h)` (`coClusterMean`,
lines 170-185: accumulate over every user's ratings into the
`(userCluster, itemCluster)` cell, then divide elementwise). -/
def coClusterMean (userClusters itemClusters : List Nat)
    (userRatings : List (List IdRating)) (g h : Nat) : F :=
  let cell := ((userClusters.zip userRatings).filter (fun p => p.1 == g)).flatMap
    (fun p => (p.2.filter (fun ir => itemClusters.getD ir.id 0 == h)).map
      (fun ir => ir.rating))
  fDivCount (some cell.sum) cell.length

/-- Residual matrix `A^{tmp1}` (lines 77-82): NaN-filled, with
`tmp1[u][i] = rating - userMeans[u] - itemMeans[i]` at each observed cell. -/
def tmp1 (userMeans itemMeans : List F) (userRatings : List (List IdRating))
    (u i : Nat) : F :=
  match (userRatings.getD u []).find? (fun ir => ir.id == i) with
  | some ir => fSub (fSub (some ir.rating) (userMeans.getD u none))
      (itemMeans.getD i none)
  | none => none

/-- Intermediate `A^{tmp2}` (lines 89-102): for user `u` and item-cluster
`h`, the observed residuals of `u` in item-cluster `h` are summed and
divided by their count (NaN when the count is zero), then the item-cluster
mean is added. -/
def tmp2 (userMeans itemMeans : List F) (userRatings : List (List IdRating))
    (itemClusters : List Nat) (icm : Nat → F) (u h : Nat) : F :=
  let cell := (userRatings.getD u []).filter
    (fun ir => itemClusters.getD ir.id 0 == h)
  let s := cell.foldl
    (fun acc ir => fAdd acc (tmp1 userMeans itemMeans userRatings u ir.id))
    (some 0)
  fAdd (fDivCount s cell.length) (icm h)

/-- Intermediate `A^{tmp3}` (lines 122-135): for user-cluster `g` and item
`j`, the observed residuals on `j` from users currently in cluster `g` are
summed and divided by their count (NaN when the count is zero), then the
user-cluster mean is added.  The user labels read here are the ones already
updated by the user-reassignment step of the same epoch. -/
def tmp3 (userMeans itemMeans : List F) (userRatings itemRatings : List (List IdRating))
    (userClusters : List Nat) (ucm : Nat → F) (g j : Nat) : F :=
  let cell := (itemRatings.getD j []).filter
    (fun ur => userClusters.getD ur.id 0 == g)
  let s := cell.foldl
    (fun acc ur => fAdd acc (tmp1 userMeans itemMeans userRatings ur.id j))
    (some 0)
  fAdd (fDivCount s cell.length) (ucm g)

/-- Guarded cost accumulation shared by both reassignment loops (lines
108-114 and 141-147): iterate the cells `0, …, n-1`; a cell whose guard
value `t c` is NaN is skipped (`!math.IsNaN`), otherwise `term c` squared is
added to the running cost (NaN in `term c` itself propagates into the cost,
exactly as float NaN does). -/
def costFold (n : Nat) (t term : Nat → F) : F :=
  (List.range n).foldl
    (fun cost c =>
      match t c with
      | none => cost
      | some _ => fAdd cost (fMul (term c) (term c)))
    (some 0)

/-- Cost of moving user `u` (with `tmp2` row `t2`) into user-cluster `g`
(lines 106-114): sum over the item-clusters `h` with `t2 h` observed of
`(t2 h - coClusterMeans[g][h] + userClusterMeans[g])²`. -/
def userCost (nItemClusters : Nat) (t2 : Nat → F) (ccm : Nat → Nat → F)
    (ucm : Nat → F) (g : Nat) : F :=
  costFold nItemClusters t2 (fun h => fAdd (fSub (t2 h) (ccm g h)) (ucm g))

/-- Cost of moving item `j` (with `tmp3` column `t3`) into item-cluster `h`
(lines 139-147): sum over the user-clusters `g` with `t3 g` observed of
`(t3 g - coClusterMeans[g][h] + itemClusterMeans[h])²`. -/
def itemCost (nUserClusters : Nat) (t3 : Nat → F) (ccm : Nat → Nat → F)
    (icm : Nat → F) (h : Nat) : F :=
  costFold nUserClusters t3 (fun g => fAdd (fSub (t3 g) (ccm g h)) (icm h))

/-- One step of the best-cluster scan: the source keeps
`bestCluster, leastCost` with `leastCost` starting at `+Inf` and updates on
a strict `cost < leastCost`.  The running least is `none` while nothing has
been accepted yet (the `+Inf` start); a NaN cost never compares less and is
never accepted. -/
def chooseStep (costs : Nat → F) (p : Nat × Option ℚ) (g : Nat) :
    Nat × Option ℚ :=
  match costs g, p.2 with
  | some c, none => (g, some c)
  | some c, some l => if c < l then (g, some c) else p
  | none, _ => p

/-- Best-cluster scan (lines 104-121 / 137-154): start from the entity's
current cluster with least cost `+Inf`, try every candidate in increasing
order, accept on strict improvement. -/
def chooseCluster (costs : Nat → F) (n cur : Nat) : Nat :=
  ((List.range n).foldl (chooseStep costs) (cur, none)).1

/-- Block statistics recomputed at the top of each epoch (lines 85-88). -/
structure Stats where
  ucm : List F
  icm : List F
  ccm : List (List F)
  deriving DecidableEq, Repr

/-- Statistics refresh at the top of an epoch (lines 85-88): user-cluster
means, item-cluster means and co-cluster means from the current labels. -/
def computeStats (K L : Nat) (ts : TrainSet) (uc ic : List Nat) : Stats where
  ucm := (List.range K).map (clusterMean uc ts.userRatings)
  icm := (List.range L).map (clusterMean ic ts.itemRatings)
  ccm := (List.range K).map (fun g =>
    (List.range L).map (fun h => coClusterMean uc ic ts.userRatings g h))

/-- Lookup into the stored user-cluster mean vector. -/
def Stats.ucmF (st : Stats) (g : Nat) : F := st.ucm.getD g none

/-- Lookup into the stored item-cluster mean vector. -/
def Stats.icmF (st : Stats) (h : Nat) : F := st.icm.getD h none

/-- Lookup into the stored co-cluster mean matrix. -/
def Stats.ccmF (st : Stats) (g h : Nat) : F := (st.ccm.getD g []).getD h none

/-- User-reassignment sweep (lines 89-121): build the `tmp2` row of each
user and rescan the candidate user-clusters, starting from the user's
current label. -/
def userPhase (K L : Nat) (ts : TrainSet) (um im : List F) (st : Stats)
    (uc ic : List Nat) : List Nat :=
  (List.range uc.length).map (fun u =>
    chooseCluster
      (userCost L (tmp2 um im ts.userRatings ic st.icmF u) st.ccmF st.ucmF)
      K (uc.getD u 0))

/-- Item-reassignment sweep (lines 122-154): build the `tmp3` column of each
item from the updated user labels and rescan the candidate item-clusters. -/
def itemPhase (K L : Nat) (ts : TrainSet) (um im : List F) (st : Stats)
    (uc ic : List Nat) : List Nat :=
  (List.range ic.length).map (fun j =>
    chooseCluster
      (itemCost K (fun g => tmp3 um im ts.userRatings ts.itemRatings uc st.ucmF g j)
        st.ccmF st.icmF)
      L (ic.getD j 0))

/-- One epoch (lines 84-155): refresh the block statistics once at the top
from the labels current at epoch start, then run the user sweep and the
item sweep, both reading those epoch-start statistics. -/
def epoch (K L : Nat) (ts : TrainSet) (um im : List F) (uc ic : List Nat) :
    List Nat × List Nat × Stats :=
  let st := computeStats K L ts uc ic
  let uc' := userPhase K L ts um im st uc ic
  let ic' := itemPhase K L ts um im st uc' ic
  (uc', ic', st)

/-- The epoch loop (lines 84-155).  The statistics fields are overwritten
each epoch; before the first epoch they hold the zero-filled allocations of
lines 73-75. -/
def epochs (K L : Nat) (ts : TrainSet) (um im : List F) :
    Nat → List Nat → List Nat → List Nat × List Nat × Stats
  | 0, uc, ic => (uc, ic,
      ⟨List.replicate K (some 0), List.replicate L (some 0),
        List.replicate K (List.replicate L (some 0))⟩)
  | n + 1, uc, ic =>
    let p := epochs K L ts um im n uc ic
    epoch K L ts um im p.1 p.2.1

/-- Fitted estimator state: the `CoClustering` struct of the source. -/
structure CoClustering where
  globalMean : ℚ
  userMeans : List F
  itemMeans : List F
  userClusters : List Nat
  itemClusters : List Nat
  userClusterMeans : List F
  itemClusterMeans : List F
  coClusterMeans : List (List F)
  userIdSet : List Int
  itemIdSet : List Int
  deriving DecidableEq, Repr

/-- Error surface of `fit` (spec §7; the surrounding error plumbing is not
under `src/`). -/
inductive FitError where
  | emptyTrainingSet
  | invalidConfig
  deriving DecidableEq, Repr

/-- Configuration (spec §4.4): the parameters read by `Fit` through
`Params.GetInt` plus the random seed. -/
structure Params where
  nEpochs : Int
  nUserClusters : Int
  nItemClusters : Int
  randState : Nat
  deriving DecidableEq, Repr

/-- Total number of observations in a training set. -/
def obsCount (ts : TrainSet) : Nat :=
  (ts.userRatings.map List.length).sum

/-- Fit (lines 59-156).  Validation is modelled from the spec (§7): the
empty-training-set and invalid-config checks live in code not under `src/`;
the spec lists `EmptyTrainingSet` first, so it is checked first here.
Everything after validation follows the source: copy the global mean,
compute the row/column means, draw the seeded initial labels (users first,
items second, from one generator stream), allocate zero-filled statistics,
and run the epoch loop. -/
def fit (p : Params) (ts : TrainSet) : Except FitError CoClustering :=
  if obsCount ts = 0 then .error .emptyTrainingSet
  else if p.nUserClusters < 1 ∨ p.nItemClusters < 1 ∨ p.nEpochs < 0 then
    .error .invalidConfig
  else
    let K := p.nUserClusters.toNat
    let L := p.nItemClusters.toNat
    let um := means ts.userRatings
    let im := means ts.itemRatings
    let r1 := MakeUniformVectorInt p.randState ts.userCount 0 K
    let r2 := MakeUniformVectorInt r1.2 ts.itemCount 0 L
    let res := epochs K L ts um im p.nEpochs.toNat r1.1 r2.1
    .ok { globalMean := ts.globalMean
          userMeans := um
          itemMeans := im
          userClusters := res.1
          itemClusters := res.2.1
          userClusterMeans := res.2.2.ucm
          itemClusterMeans := res.2.2.icm
          coClusterMeans := res.2.2.ccm
          userIdSet := ts.userIds
          itemIdSet := ts.itemIds }

/-- Predict (lines 33-56): resolve both external ids, then dispatch on the
four known/unknown combinations. -/
def Predict (coc : CoClustering) (userId itemId : Int) : F :=
  match toDenseId coc.userIdSet userId, toDenseId coc.itemIdSet itemId with
  | some u, some i =>
    let g := coc.userClusters.getD u 0
    let h := coc.itemClusters.getD i 0
    fAdd (fSub (fSub (fAdd (coc.userMeans.getD u none) (coc.itemMeans.getD i none))
        (coc.userClusterMeans.getD g none))
      (coc.itemClusterMeans.getD h none))
      ((coc.coClusterMeans.getD g []).getD h none)
  | some u, none => coc.userMeans.getD u none
  | none, some i => coc.itemMeans.getD i none
  | none, none => some coc.globalMean

/-- Refinement reference for the predict table, written from the spec's
words (§4.4): "known/known: `user_means[u] + item_means[i] -
user_cluster_means[g] - item_cluster_means[h] + co_cluster_means[g][h]`
where `g = user_clusters[u], h = item_clusters[i]`; known/unknown:
`user_means[u]`; unknown/known: `item_means[i]`; unknown/unknown:
`global_mean`". -/
def specPredict (coc : CoClustering) (userId itemId : Int) : F :=
  match toDenseId coc.userIdSet userId, toDenseId coc.itemIdSet itemId with
  | some u, some i =>
    fAdd (fSub (fSub (fAdd (coc.userMeans.getD u none) (coc.itemMeans.getD i none))
        (coc.userClusterMeans.getD (coc.userClusters.getD u 0) none))
      (coc.itemClusterMeans.getD (coc.itemClusters.getD i 0) none))
      ((coc.coClusterMeans.getD (coc.userClusters.getD u 0) []).getD
        (coc.itemClusters.getD i 0) none)
  | some u, none => coc.userMeans.getD u none
  | none, some i => coc.itemMeans.getD i none
  | none, none => some coc.globalMean

/-- Decidable equality for `Except`, so fit outcomes can be checked by
evaluation. -/
instance {ε α : Type} [DecidableEq ε] [DecidableEq α] :
    DecidableEq (Except ε α)
  | .error a, .error b =>
    if h : a = b then .isTrue (by rw [h])
    else .isFalse (by intro hc; cases hc; exact h rfl)
  | .error _, .ok _ => .isFalse (by intro hc; cases hc)
  | .ok _, .error _ => .isFalse (by intro hc; cases hc)
  | .ok a, .ok b =>
    if h : a = b then .isTrue (by rw [h])
    else .isFalse (by intro hc; cases hc; exact h rfl)

/-! ## Concrete scenarios used by witnesses and counterexamples -/

/-- Single-observation configuration: one epoch, one user cluster, one item
cluster, seed 0. -/
def pOne : Params := ⟨1, 1, 1, 0⟩

/-- Single-observation training set: user 1 rated item 10 with 4. -/
def tsOne : TrainSet := ⟨1, 1, 4, [[⟨0, 4⟩]], [[⟨0, 4⟩]], [1], [10]⟩

/-- Fitted state of the single-observation scenario. -/
def sOne : CoClustering :=
  ⟨4, [some 4], [some 4], [0], [0], [some 4], [some 4], [[some 4]], [1], [10]⟩

/-- Two-user, two-item configuration: one epoch, two user clusters, two
item clusters, seed 1 (the seeded initial labels are `[0, 1]` on both
axes). -/
def pTwo : Params := ⟨1, 2, 2, 1⟩

/-- Diagonal training set: user 1 rated item 10, user 2 rated item 20,
both with 4; blocks `(0,1)` and `(1,0)` of the initial labelling are
empty. -/
def tsDiag : TrainSet :=
  ⟨2, 2, 4, [[⟨0, 4⟩], [⟨1, 4⟩]], [[⟨0, 4⟩], [⟨1, 4⟩]], [1, 2], [10, 20]⟩

/-- Fitted state of the diagonal scenario: the empty blocks keep NaN
co-cluster means. -/
def sDiag : CoClustering :=
  ⟨4, [some 4, some 4], [some 4, some 4], [0, 1], [0, 1],
    [some 4, some 4], [some 4, some 4], [[some 4, none], [none, some 4]],
    [1, 2], [10, 20]⟩

/-- Zero-epoch configuration: no epochs, two user clusters, two item
clusters, seed 1. -/
def pZero : Params := ⟨0, 2, 2, 1⟩

/-- Fitted state of the diagonal scenario under the zero-epoch
configuration: the cluster means keep their zero-filled allocations and the
labels keep their seeded initial values. -/
def sZero : CoClustering :=
  ⟨4, [some 4, some 4], [some 4, some 4], [0, 1], [0, 1],
    [some 0, some 0], [some 0, some 0], [[some 0, some 0], [some 0, some 0]],
    [1, 2], [10, 20]⟩

/-- Constant training set: users 1 and 2 both rated items 10 and 20 with
3; every reassignment cost ties. -/
def tsConst : TrainSet :=
  ⟨2, 2, 3, [[⟨0, 3⟩, ⟨1, 3⟩], [⟨0, 3⟩, ⟨1, 3⟩]],
    [[⟨0, 3⟩, ⟨1, 3⟩], [⟨0, 3⟩, ⟨1, 3⟩]], [1, 2], [10, 20]⟩

/-- Seeded initial user labels of the constant scenario (seed 1). -/
def ucConst : List Nat := (MakeUniformVectorInt 1 2 0 2).1

/-- Seeded initial item labels of the constant scenario (seed 1, second
draw of the stream). -/
def icConst : List Nat :=
  (MakeUniformVectorInt (MakeUniformVectorInt 1 2 0 2).2 2 0 2).1

/-- Epoch-start statistics of the constant scenario's first epoch. -/
def stConst : Stats := computeStats 2 2 tsConst ucConst icConst

/-- Row means of the constant scenario. -/
def umConst : List F := means tsConst.userRatings

/-- Column means of the constant scenario. -/
def imConst : List F := means tsConst.itemRatings

/-- Reassignment costs of user 1 in the constant scenario's first epoch. -/
def costsConst (g : Nat) : F :=
  userCost 2 (tmp2 umConst imConst tsConst.userRatings icConst stConst.icmF 1)
    stConst.ccmF stConst.ucmF g

/-! ## Helper lemmas -/

/-- Unfolding of one trailing cell of the guarded cost accumulation. -/
lemma costFold_succ (n : Nat) (t term : Nat → F) :
    costFold (n + 1) t term =
      (match t n with
       | none => costFold n t term
       | some _ => fAdd (costFold n t term) (fMul (term n) (term n))) := by
  unfold costFold
  rw [List.range_succ, List.foldl_append]
  rfl

/-- The guarded cost accumulation sums the squared terms over exactly the
cells whose guard is observed, and is finite when every summed term is. -/
lemma costFold_eq_sum (n : Nat) (t term : Nat → F)
    (hterm : ∀ c, c < n → t c ≠ none → ∃ q, term c = some q) :
    costFold n t term =
      some (∑ c ∈ (Finset.range n).filter (fun c => t c ≠ none),
        ((term c).getD 0) ^ 2) := by
  induction n with
  | zero => simp [costFold]
  | succ m ih =>
    have ihm := ih (fun c hc => hterm c (Nat.lt_succ_of_lt hc))
    rw [costFold_succ]
    rcases ht : t m with _ | x
    · rw [Finset.range_succ, Finset.filter_insert, if_neg (by simp [ht])]
      simpa [ht] using ihm
    · obtain ⟨q, hq⟩ := hterm m (Nat.lt_succ_self m) (by simp [ht])
      rw [Finset.range_succ, Finset.filter_insert, if_pos (by simp [ht]),
        Finset.sum_insert (by simp)]
      simp only [ihm, hq, fAdd, fMul, Option.getD_some]
      rw [Option.some_inj]
      ring

/-- Invariant of the best-cluster scan after processing candidates
`0, …, n-1`: either nothing was accepted (the pair is still the current
label with a `+Inf` least cost) and every candidate's cost is NaN, or the
pair holds the first index attaining the strictly least defined cost. -/
lemma chooseFold_inv (costs : Nat → F) (cur n : Nat) :
    (((List.range n).foldl (chooseStep costs) (cur, none)).2 = none ∧
      ((List.range n).foldl (chooseStep costs) (cur, none)).1 = cur ∧
      ∀ g, g < n → costs g = none) ∨
    (∃ m, ((List.range n).foldl (chooseStep costs) (cur, none)).2 = some m ∧
      ((List.range n).foldl (chooseStep costs) (cur, none)).1 < n ∧
      costs (((List.range n).foldl (chooseStep costs) (cur, none)).1) = some m ∧
      (∀ g c, g < n → costs g = some c → m ≤ c) ∧
      (∀ g c, g < ((List.range n).foldl (chooseStep costs) (cur, none)).1 →
        costs g = some c → m < c)) := by
  induction n with
  | zero =>
    left
    exact ⟨rfl, rfl, fun g hg => absurd hg (Nat.not_lt_zero g)⟩
  | succ m ih =>
    rw [List.range_succ, List.foldl_append, List.foldl_cons, List.foldl_nil]
    set q := (List.range m).foldl (chooseStep costs) (cur, none) with hqdef
    rcases ih with ⟨h2, h1, hall⟩ | ⟨mm, h2, hlt, hcost, hmin, hfirst⟩
    · rcases hc : costs m with _ | c
      · left
        refine ⟨?_, ?_, ?_⟩
        · simp [chooseStep, hc, h2]
        · simp [chooseStep, hc, h2, h1]
        · intro g hg
          rcases Nat.lt_succ_iff_lt_or_eq.mp hg with hg' | rfl
          · exact hall g hg'
          · exact hc
      · right
        refine ⟨c, ?_, ?_, ?_, ?_, ?_⟩
        · simp [chooseStep, hc, h2]
        · simp [chooseStep, hc, h2]
        · simp [chooseStep, hc, h2]
        · intro g c' hg hgc
          rcases Nat.lt_succ_iff_lt_or_eq.mp hg with hg' | rfl
          · exact absurd hgc (by simp [hall g hg'])
          · rw [hc] at hgc
            exact le_of_eq (Option.some_inj.mp hgc)
        · intro g c' hg hgc
          simp only [chooseStep, hc, h2] at hg
          exact absurd hgc (by simp [hall g hg])
    · rcases hc : costs m with _ | c
      · right
        refine ⟨mm, ?_, ?_, ?_, ?_, ?_⟩
        · simp [chooseStep, hc, h2]
        · simp only [chooseStep, hc]
          exact Nat.lt_succ_of_lt hlt
        · simp only [chooseStep, hc]
          exact hcost
        · intro g c' hg hgc
          rcases Nat.lt_succ_iff_lt_or_eq.mp hg with hg' | rfl
          · exact hmin g c' hg' hgc
          · exact absurd hgc (by simp [hc])
        · intro g c' hg hgc
          simp only [chooseStep, hc] at hg
          exact hfirst g c' hg hgc
      · by_cases hcm : c < mm
        · right
          refine ⟨c, ?_, ?_, ?_, ?_, ?_⟩
          · simp [chooseStep, hc, h2, hcm]
          · simp [chooseStep, hc, h2, hcm]
          · simp [chooseStep, hc, h2, hcm]
          · intro g c' hg hgc
            rcases Nat.lt_succ_iff_lt_or_eq.mp hg with hg' | rfl
            · exact le_of_lt (lt_of_lt_of_le hcm (hmin g c' hg' hgc))
            · rw [hc] at hgc
              exact le_of_eq (Option.some_inj.mp hgc)
          · intro g c' hg hgc
            simp only [chooseStep, hc, h2, hcm, if_pos] at hg
            exact lt_of_lt_of_le hcm (hmin g c' hg hgc)
        · right
          refine ⟨mm, ?_, ?_, ?_, ?_, ?_⟩
          · simp [chooseStep, hc, h2, hcm]
          · simp only [chooseStep, hc, h2, if_neg hcm]
            exact Nat.lt_succ_of_lt hlt
          · simp only [chooseStep, hc, h2, if_neg hcm]
            exact hcost
          · intro g c' hg hgc
            rcases Nat.lt_succ_iff_lt_or_eq.mp hg with hg' | rfl
            · exact hmin g c' hg' hgc
            · rw [hc] at hgc
              rw [← Option.some_inj.mp hgc]
              exact le_of_not_lt hcm
          · intro g c' hg hgc
            simp only [chooseStep, hc, h2, if_neg hcm] at hg
            exact hfirst g c' hg hgc

/-- The best-cluster scan returns either the current label or a candidate
index below `n`. -/
lemma chooseCluster_cases (costs : Nat → F) (n cur : Nat) :
    chooseCluster costs n cur = cur ∨ chooseCluster costs n cur < n := by
  rcases chooseFold_inv costs cur n with ⟨_, h1, _⟩ | ⟨m, _, hlt, _⟩
  · exact Or.inl h1
  · exact Or.inr hlt

/-- Tie-break policy actually implemented by the scan: when no candidate
has a defined (non-NaN) cost the current label is kept; otherwise the
result is the lowest-index candidate attaining the least defined cost. -/
def lowestIndexArgmin (costs : Nat → F) (n cur r : Nat) : Prop :=
  ((∀ g, g < n → costs g = none) → r = cur) ∧
  ∀ g₀ c₀, g₀ < n → costs g₀ = some c₀ →
    r < n ∧ ∃ m, costs r = some m ∧
      (∀ g c, g < n → costs g = some c → m ≤ c) ∧
      (∀ g c, g < r → costs g = some c → m < c)

/-- The best-cluster scan satisfies the lowest-index-argmin description. -/
lemma chooseCluster_lowestIndexArgmin (costs : Nat → F) (n cur : Nat) :
    lowestIndexArgmin costs n cur (chooseCluster costs n cur) := by
  constructor
  · intro hall
    rcases chooseFold_inv costs cur n with ⟨_, h1, _⟩ | ⟨m, _, hlt, hcost, _, _⟩
    · exact h1
    · exact absurd hcost (by simp [hall _ hlt])
  · intro g₀ c₀ hg₀ hc₀
    rcases chooseFold_inv costs cur n with ⟨_, _, hall⟩ | ⟨m, _, hlt, hcost, hmin, hfirst⟩
    · exact absurd hc₀ (by simp [hall g₀ hg₀])
    · exact ⟨hlt, m, hcost, hmin, hfirst⟩

/-- Reading a position of a mapped range evaluates the function there. -/
lemma getD_map_range {α : Type} (f : Nat → α) (n u : Nat) (hu : u < n) (d : α) :
    ((List.range n).map f).getD u d = f u := by
  rw [List.getD_eq_getElem?_getD, List.getElem?_map, List.getElem?_range hu]
  rfl

/-- The user sweep assigns user `u` from the best-cluster scan. -/
lemma userPhase_getD (K L : Nat) (ts : TrainSet) (um im : List F) (st : Stats)
    (uc ic : List Nat) (u : Nat) (hu : u < uc.length) :
    (userPhase K L ts um im st uc ic).getD u 0 =
      chooseCluster
        (userCost L (tmp2 um im ts.userRatings ic st.icmF u) st.ccmF st.ucmF)
        K (uc.getD u 0) := by
  unfold userPhase
  exact getD_map_range _ _ _ hu _

/-- The item sweep assigns item `j` from the best-cluster scan. -/
lemma itemPhase_getD (K L : Nat) (ts : TrainSet) (um im : List F) (st : Stats)
    (uc ic : List Nat) (j : Nat) (hj : j < ic.length) :
    (itemPhase K L ts um im st uc ic).getD j 0 =
      chooseCluster
        (itemCost K (fun g => tmp3 um im ts.userRatings ts.itemRatings uc st.ucmF g j)
          st.ccmF st.icmF)
        L (ic.getD j 0) := by
  unfold itemPhase
  exact getD_map_range _ _ _ hj _

/-- The seeded vector has the requested length. -/
lemma MakeUniformVectorInt_length :
    ∀ (seed n lo hi : Nat), (MakeUniformVectorInt seed n lo hi).1.length = n := by
  intro seed n
  induction n generalizing seed with
  | zero => intro lo hi; rfl
  | succ m ih =>
    intro lo hi
    simp [MakeUniformVectorInt, ih]

/-- Every entry of a seeded vector over `[0, hi)` is below `hi`. -/
lemma MakeUniformVectorInt_mem_lt (hi : Nat) (hpos : 0 < hi) :
    ∀ (seed n : Nat), ∀ x ∈ (MakeUniformVectorInt seed n 0 hi).1, x < hi := by
  intro seed n
  induction n generalizing seed with
  | zero => simp [MakeUniformVectorInt]
  | succ m ih =>
    intro x hx
    simp only [MakeUniformVectorInt, List.mem_cons] at hx
    rcases hx with h | hx
    · rw [h, Nat.sub_zero, Nat.zero_add]
      exact Nat.mod_lt (lcgNext seed) hpos
    · exact ih (lcgNext seed) x hx

/-- A guarded read of a list is a member. -/
lemma getD_mem {α : Type} (l : List α) (u : Nat) (d : α) (h : u < l.length) :
    l.getD u d ∈ l := by
  rw [List.getD_eq_getElem?_getD, List.getElem?_eq_getElem h]
  exact List.getElem_mem h

/-- The user sweep keeps its output length. -/
lemma userPhase_length (K L : Nat) (ts : TrainSet) (um im : List F)
    (st : Stats) (uc ic : List Nat) :
    (userPhase K L ts um im st uc ic).length = uc.length := by
  simp [userPhase]

/-- The item sweep keeps its output length. -/
lemma itemPhase_length (K L : Nat) (ts : TrainSet) (um im : List F)
    (st : Stats) (uc ic : List Nat) :
    (itemPhase K L ts um im st uc ic).length = ic.length := by
  simp [itemPhase]

/-- The user sweep keeps every label below `K` when the input labels are. -/
lemma userPhase_mem_lt (K L : Nat) (ts : TrainSet) (um im : List F)
    (st : Stats) (uc ic : List Nat) (huc : ∀ x ∈ uc, x < K) :
    ∀ x ∈ userPhase K L ts um im st uc ic, x < K := by
  intro x hx
  simp only [userPhase, List.mem_map, List.mem_range] at hx
  obtain ⟨u, hu, rfl⟩ := hx
  rcases chooseCluster_cases
      (userCost L (tmp2 um im ts.userRatings ic st.icmF u) st.ccmF st.ucmF)
      K (uc.getD u 0) with h | h
  · rw [h]
    exact huc _ (getD_mem uc u 0 hu)
  · exact h

/-- The item sweep keeps every label below `L` when the input labels are. -/
lemma itemPhase_mem_lt (K L : Nat) (ts : TrainSet) (um im : List F)
    (st : Stats) (uc ic : List Nat) (hic : ∀ x ∈ ic, x < L) :
    ∀ x ∈ itemPhase K L ts um im st uc ic, x < L := by
  intro x hx
  simp only [itemPhase, List.mem_map, List.mem_range] at hx
  obtain ⟨j, hj, rfl⟩ := hx
  rcases chooseCluster_cases
      (itemCost K (fun g => tmp3 um im ts.userRatings ts.itemRatings uc st.ucmF g j)
        st.ccmF st.icmF)
      L (ic.getD j 0) with h | h
  · rw [h]
    exact hic _ (getD_mem ic j 0 hj)
  · exact h

/-- The epoch loop preserves label lengths and the range invariant. -/
lemma epochs_inv (K L : Nat) (ts : TrainSet) (um im : List F) (n : Nat)
    (uc ic : List Nat) (huc : ∀ x ∈ uc, x < K) (hic : ∀ x ∈ ic, x < L) :
    (epochs K L ts um im n uc ic).1.length = uc.length ∧
    (epochs K L ts um im n uc ic).2.1.length = ic.length ∧
    (∀ x ∈ (epochs K L ts um im n uc ic).1, x < K) ∧
    (∀ x ∈ (epochs K L ts um im n uc ic).2.1, x < L) := by
  induction n with
  | zero => exact ⟨rfl, rfl, huc, hic⟩
  | succ m ih =>
    obtain ⟨hlu, hli, hbu, hbi⟩ := ih
    refine ⟨?_, ?_, ?_, ?_⟩
    · show (userPhase K L ts um im _ _ _).length = uc.length
      rw [userPhase_length]
      exact hlu
    · show (itemPhase K L ts um im _ _ _).length = ic.length
      rw [itemPhase_length]
      exact hli
    · exact userPhase_mem_lt K L ts um im _ _ _ hbu
    · exact itemPhase_mem_lt K L ts um im _ _ _ hbi

/-- A successful position search stays within the start-shifted length. -/
lemma findIdx?_lt_length {α : Type} (p : α → Bool) :
    ∀ (l : List α) (i u : Nat), List.findIdx? p l i = some u → u < i + l.length := by
  intro l
  induction l with
  | nil => intro i u h; simp [List.findIdx?] at h
  | cons a as ih =>
    intro i u h
    rw [List.findIdx?_cons] at h
    by_cases hp : p a
    · rw [if_pos hp] at h
      have heq : i = u := Option.some_inj.mp h
      simp only [List.length_cons]
      omega
    · simp only [hp] at h
      have := ih (i + 1) u (by simpa using h)
      simp only [List.length_cons]
      omega

/-- A resolved dense id indexes into the identifier map. -/
lemma toDenseId_lt (ids : List Int) (x : Int) (u : Nat)
    (h : toDenseId ids x = some u) : u < ids.length := by
  have := findIdx?_lt_length (fun y => y == x) ids 0 u h
  simpa using this

/-- Reading inside a replicated list yields the replicated value. -/
lemma getD_replicate {α : Type} (n i : Nat) (a d : α) (h : i < n) :
    (List.replicate n a).getD i d = a := by
  rw [List.getD_eq_getElem?_getD, List.getElem?_replicate, if_pos h]
  rfl

/-- Prediction for a known pair whose three cluster statistics are all the
zero value reduces to the sum of the row and column means. -/
lemma predict_reduce (coc : CoClustering) (ue ie : Int) (u i : Nat)
    (hu : toDenseId coc.userIdSet ue = some u)
    (hi : toDenseId coc.itemIdSet ie = some i)
    (h1 : coc.userClusterMeans.getD (coc.userClusters.getD u 0) none = some 0)
    (h2 : coc.itemClusterMeans.getD (coc.itemClusters.getD i 0) none = some 0)
    (h3 : (coc.coClusterMeans.getD (coc.userClusters.getD u 0) []).getD
      (coc.itemClusters.getD i 0) none = some 0) :
    Predict coc ue ie = fAdd (coc.userMeans.getD u none) (coc.itemMeans.getD i none) := by
  unfold Predict
  rw [hu, hi]
  simp only
  rw [h1, h2, h3]
  rcases coc.userMeans.getD u none with _ | a <;>
    rcases coc.itemMeans.getD i none with _ | b <;>
      simp [fAdd, fSub]

/-! ## Claim theorems -/

/-- C1: for every fitted estimator, predict follows the four-way cold-start
table: known/known gives `user_means[u] + item_means[i] -
user_cluster_means[g] - item_cluster_means[h] + co_cluster_means[g][h]`
with `g = user_clusters[u]` and `h = item_clusters[i]`; known user only
gives `user_means[u]`; known item only gives `item_means[i]`; both unknown
gives `global_mean`. -/
theorem predict_follows_cold_start_table (coc : CoClustering)
    (userId itemId : Int) : Predict coc userId itemId = specPredict coc userId itemId := by
  unfold Predict specPredict
  rcases toDenseId coc.userIdSet userId with _ | u <;>
    rcases toDenseId coc.itemIdSet itemId with _ | i <;> rfl

/-- C2: counterexample to the claimed tie-break.  In the constant
scenario's first user sweep, both candidate clusters of user 1 attain the
minimal cost 0 and the user's current assignment (cluster 1) is among the
minimizers, yet the sweep assigns cluster 0: the scan updates only on a
strict improvement starting from `+Inf`, so ties go to the lowest candidate
index, not to the current assignment. -/
theorem reassignment_tie_break_counterexample :
    costsConst 0 = some 0 ∧ costsConst 1 = some 0 ∧ ucConst.getD 1 0 = 1 ∧
      (userPhase 2 2 tsConst umConst imConst stConst ucConst icConst).getD 1 0 = 0 := by
  decide

/-- C2 (amended): in every reassignment sweep (user or item), the chosen
cluster is the lowest-index candidate attaining the least cost among the
candidates whose cost is defined (non-NaN); the current assignment is kept
only when no candidate has a defined cost.  The claimed preference for the
current assignment on ties does not hold. -/
theorem reassignment_lowest_index_argmin (K L : Nat) (ts : TrainSet)
    (um im : List F) (st : Stats) (uc ic : List Nat) :
    (∀ u, u < uc.length →
      lowestIndexArgmin
        (userCost L (tmp2 um im ts.userRatings ic st.icmF u) st.ccmF st.ucmF)
        K (uc.getD u 0) ((userPhase K L ts um im st uc ic).getD u 0)) ∧
    (∀ j, j < ic.length →
      lowestIndexArgmin
        (itemCost K (fun g => tmp3 um im ts.userRatings ts.itemRatings uc st.ucmF g j)
          st.ccmF st.icmF)
        L (ic.getD j 0) ((itemPhase K L ts um im st uc ic).getD j 0)) := by
  constructor
  · intro u hu
    rw [userPhase_getD K L ts um im st uc ic u hu]
    exact chooseCluster_lowestIndexArgmin _ K _
  · intro j hj
    rw [itemPhase_getD K L ts um im st uc ic j hj]
    exact chooseCluster_lowestIndexArgmin _ L _

/-- Witness for the amended C2: in the constant scenario, user 1 has a
candidate with defined cost, so the sweep picks a candidate index below 2. -/
theorem reassignment_lowest_index_argmin_witness :
    (userPhase 2 2 tsConst umConst imConst stConst ucConst icConst).getD 1 0 < 2 :=
  (((reassignment_lowest_index_argmin 2 2 tsConst umConst imConst stConst
      ucConst icConst).1 1 (by decide)).2 0 0 (by decide) (by decide)).1

/-- C3: in every reassignment cost sum (user or item side), exactly the
cells whose intermediate (`R₂[u][h]` resp. `R₃[g][j]`) is unobserved are
skipped, and for a candidate cluster whose relevant statistics are defined
the cost is the finite sum of the squared residual terms over the observed
cells; an unobserved cell (in particular an entire empty item- or
user-cluster) contributes nothing, and the sum is a genuine finite value. -/
theorem reassignment_cost_skips_exactly_unobserved :
    (∀ (L : Nat) (t2 : Nat → F) (ccm : Nat → Nat → F) (ucm : Nat → F)
      (g : Nat) (a : ℚ), ucm g = some a →
      (∀ h, h < L → t2 h ≠ none → ∃ b, ccm g h = some b) →
      userCost L t2 ccm ucm g =
        some (∑ h ∈ (Finset.range L).filter (fun h => t2 h ≠ none),
          ((t2 h).getD 0 - (ccm g h).getD 0 + a) ^ 2)) ∧
    (∀ (K : Nat) (t3 : Nat → F) (ccm : Nat → Nat → F) (icm : Nat → F)
      (hcl : Nat) (a : ℚ), icm hcl = some a →
      (∀ g, g < K → t3 g ≠ none → ∃ b, ccm g hcl = some b) →
      itemCost K t3 ccm icm hcl =
        some (∑ g ∈ (Finset.range K).filter (fun g => t3 g ≠ none),
          ((t3 g).getD 0 - (ccm g hcl).getD 0 + a) ^ 2)) := by
  constructor
  · intro L t2 ccm ucm g a hucm hccm
    unfold userCost
    rw [costFold_eq_sum L t2 _ (fun h hh hne => by
      obtain ⟨v, hv⟩ := Option.ne_none_iff_exists'.mp hne
      obtain ⟨b, hb⟩ := hccm h hh hne
      exact ⟨v - b + a, by simp [hv, hb, hucm, fAdd, fSub]⟩)]
    congr 1
    refine Finset.sum_congr rfl (fun h hh => ?_)
    rw [Finset.mem_filter] at hh
    obtain ⟨v, hv⟩ := Option.ne_none_iff_exists'.mp hh.2
    obtain ⟨b, hb⟩ := hccm h (Finset.mem_range.mp hh.1) hh.2
    simp [hv, hb, hucm, fAdd, fSub]
  · intro K t3 ccm icm hcl a hicm hccm
    unfold itemCost
    rw [costFold_eq_sum K t3 _ (fun g hg hne => by
      obtain ⟨v, hv⟩ := Option.ne_none_iff_exists'.mp hne
      obtain ⟨b, hb⟩ := hccm g hg hne
      exact ⟨v - b + a, by simp [hv, hb, hicm, fAdd, fSub]⟩)]
    congr 1
    refine Finset.sum_congr rfl (fun g hg => ?_)
    rw [Finset.mem_filter] at hg
    obtain ⟨v, hv⟩ := Option.ne_none_iff_exists'.mp hg.2
    obtain ⟨b, hb⟩ := hccm g (Finset.mem_range.mp hg.1) hg.2
    simp [hv, hb, hicm, fAdd, fSub]

/-- Witness for C3: a two-cell cost with one observed cell evaluates to the
single squared term. -/
theorem reassignment_cost_skips_exactly_unobserved_witness :
    userCost 2 (fun h => if h = 0 then some 1 else none)
      (fun _ _ => some 0) (fun _ => some 0) 0 = some 1 := by
  rw [(reassignment_cost_skips_exactly_unobserved).1 2
    (fun h => if h = 0 then some 1 else none) (fun _ _ => some 0)
    (fun _ => some 0) 0 0 rfl (fun h _ _ => ⟨0, rfl⟩)]
  decide

/-- C5: when fit is called with a training set containing zero
observations, it fails with `EmptyTrainingSet` and no fitted state is
produced. -/
theorem fit_empty_training_set_errors (p : Params) (ts : TrainSet)
    (h : obsCount ts = 0) : fit p ts = .error .emptyTrainingSet := by
  unfold fit
  rw [if_pos h]

/-- Witness for C5: fitting the empty training set fails with
`EmptyTrainingSet`. -/
theorem fit_empty_training_set_errors_witness :
    fit pOne ⟨0, 0, 0, [], [], [], []⟩ = .error .emptyTrainingSet :=
  fit_empty_training_set_errors pOne ⟨0, 0, 0, [], [], [], []⟩ (by decide)

/-- C9: fit fails with `InvalidConfig` when `n_user_clusters < 1`,
`n_item_clusters < 1`, or `n_epochs < 0` (on a non-empty training set; an
empty one reports `EmptyTrainingSet` first, as the spec lists it first). -/
theorem fit_invalid_config_errors (p : Params) (ts : TrainSet)
    (hne : obsCount ts ≠ 0)
    (hbad : p.nUserClusters < 1 ∨ p.nItemClusters < 1 ∨ p.nEpochs < 0) :
    fit p ts = .error .invalidConfig := by
  unfold fit
  rw [if_neg hne, if_pos hbad]

/-- Witness for C9: a zero-user-cluster configuration is rejected. -/
theorem fit_invalid_config_errors_witness :
    fit ⟨1, 0, 2, 0⟩ tsOne = .error .invalidConfig :=
  fit_invalid_config_errors ⟨1, 0, 2, 0⟩ tsOne (by decide) (by decide)

/-- C4: counterexample to unconditional totality.  The diagonal scenario
fits successfully; external user 1 and external item 20 are both known; but
their resolved block `(0, 1)` was empty during training, its stored
co-cluster mean is the NaN sentinel, and the NaN propagates through the
prediction formula: predict returns NaN, not a finite number. -/
theorem predict_nan_on_empty_block_counterexample :
    fit pTwo tsDiag = .ok sDiag ∧
      toDenseId sDiag.userIdSet 1 = some 0 ∧
      toDenseId sDiag.itemIdSet 20 = some 1 ∧
      Predict sDiag 1 20 = none := by
  decide

/-- C4 (amended): predict is finite in every case whose inputs are finite:
with both identifiers unknown it returns the (finite) global mean; with one
side known it is finite whenever that side's stored mean is finite; with
both known it is finite provided every fitted statistic it reads (the two
row/column means, the two cluster means and the co-cluster mean at the
resolved labels) is defined, i.e. provided the resolved block was not empty
during training. -/
theorem predict_total_on_defined_stats (coc : CoClustering) (ue ie : Int) :
    (toDenseId coc.userIdSet ue = none → toDenseId coc.itemIdSet ie = none →
      Predict coc ue ie ≠ none) ∧
    (∀ u, toDenseId coc.userIdSet ue = some u → toDenseId coc.itemIdSet ie = none →
      coc.userMeans.getD u none ≠ none → Predict coc ue ie ≠ none) ∧
    (∀ i, toDenseId coc.userIdSet ue = none → toDenseId coc.itemIdSet ie = some i →
      coc.itemMeans.getD i none ≠ none → Predict coc ue ie ≠ none) ∧
    (∀ u i, toDenseId coc.userIdSet ue = some u → toDenseId coc.itemIdSet ie = some i →
      coc.userMeans.getD u none ≠ none → coc.itemMeans.getD i none ≠ none →
      coc.userClusterMeans.getD (coc.userClusters.getD u 0) none ≠ none →
      coc.itemClusterMeans.getD (coc.itemClusters.getD i 0) none ≠ none →
      (coc.coClusterMeans.getD (coc.userClusters.getD u 0) []).getD
        (coc.itemClusters.getD i 0) none ≠ none →
      Predict coc ue ie ≠ none) := by
  refine ⟨?_, ?_, ?_, ?_⟩
  · intro hu hi
    unfold Predict
    rw [hu, hi]
    simp
  · intro u hu hi hum
    unfold Predict
    rw [hu, hi]
    exact hum
  · intro i hu hi him
    unfold Predict
    rw [hu, hi]
    exact him
  · intro u i hu hi hum him hucm hicm hccm
    unfold Predict
    rw [hu, hi]
    obtain ⟨a, ha⟩ := Option.ne_none_iff_exists'.mp hum
    obtain ⟨b, hb⟩ := Option.ne_none_iff_exists'.mp him
    obtain ⟨c, hc⟩ := Option.ne_none_iff_exists'.mp hucm
    obtain ⟨d, hd⟩ := Option.ne_none_iff_exists'.mp hicm
    obtain ⟨e, he⟩ := Option.ne_none_iff_exists'.mp hccm
    simp only [ha, hb, hc, hd, he, fAdd, fSub]
    exact Option.some_ne_none _

/-- Witness for the amended C4: in the diagonal scenario the fully observed
pair (user 1, item 10) resolves to the populated block `(0, 0)` and the
prediction is finite. -/
theorem predict_total_on_defined_stats_witness :
    Predict sDiag 1 10 ≠ none :=
  (predict_total_on_defined_stats sDiag 1 10).2.2.2 0 0 (by decide) (by decide)
    (by decide) (by decide) (by decide) (by decide) (by decide)

/-- C6: within every epoch the block statistics are recomputed exactly
once, at the top, from the labels current at epoch start; the user sweep
and the item sweep of that epoch both read those epoch-start statistics
(one shared `computeStats` value), and nothing is recomputed between the
two sweeps; the statistics stored after the epoch are that epoch-start
value. -/
theorem epoch_statistics_refreshed_once (K L : Nat) (ts : TrainSet)
    (um im : List F) (n : Nat) (uc ic : List Nat) :
    epochs K L ts um im (n + 1) uc ic =
      (let prev := epochs K L ts um im n uc ic
       let st := computeStats K L ts prev.1 prev.2.1
       let uc' := userPhase K L ts um im st prev.1 prev.2.1
       (uc', itemPhase K L ts um im st uc' prev.2.1, st)) := rfl

/-- C7: after a successful fit every cluster label is in range: the label
vectors have one entry per user resp. item and every user label is below
`K = n_user_clusters`, every item label below `L = n_item_clusters`; the
invariant holds after every completed epoch starting from the seeded
uniform initialization over `[0, K)` and `[0, L)`. -/
theorem fit_cluster_labels_in_range (p : Params) (ts : TrainSet)
    (s : CoClustering) (hfit : fit p ts = .ok s) :
    s.userClusters.length = ts.userCount ∧
    s.itemClusters.length = ts.itemCount ∧
    (∀ g ∈ s.userClusters, g < p.nUserClusters.toNat) ∧
    (∀ h ∈ s.itemClusters, h < p.nItemClusters.toNat) ∧
    (∀ n,
      (∀ g ∈ (epochs p.nUserClusters.toNat p.nItemClusters.toNat ts
          (means ts.userRatings) (means ts.itemRatings) n
          (MakeUniformVectorInt p.randState ts.userCount 0 p.nUserClusters.toNat).1
          (MakeUniformVectorInt
            (MakeUniformVectorInt p.randState ts.userCount 0 p.nUserClusters.toNat).2
            ts.itemCount 0 p.nItemClusters.toNat).1).1,
        g < p.nUserClusters.toNat) ∧
      (∀ h ∈ (epochs p.nUserClusters.toNat p.nItemClusters.toNat ts
          (means ts.userRatings) (means ts.itemRatings) n
          (MakeUniformVectorInt p.randState ts.userCount 0 p.nUserClusters.toNat).1
          (MakeUniformVectorInt
            (MakeUniformVectorInt p.randState ts.userCount 0 p.nUserClusters.toNat).2
            ts.itemCount 0 p.nItemClusters.toNat).1).2.1,
        h < p.nItemClusters.toNat)) := by
  unfold fit at hfit
  split at hfit
  · exact absurd hfit (by simp)
  rename_i hne
  split at hfit
  · exact absurd hfit (by simp)
  rename_i hvalid
  have hK : 0 < p.nUserClusters.toNat := by
    rcases not_or.mp hvalid with ⟨h1, _⟩
    omega
  have hL : 0 < p.nItemClusters.toNat := by
    rcases not_or.mp hvalid with ⟨_, h2⟩
    rcases not_or.mp h2 with ⟨h2, _⟩
    omega
  have hucb := MakeUniformVectorInt_mem_lt p.nUserClusters.toNat hK
    p.randState ts.userCount
  have hicb := MakeUniformVectorInt_mem_lt p.nItemClusters.toNat hL
    (MakeUniformVectorInt p.randState ts.userCount 0 p.nUserClusters.toNat).2
    ts.itemCount
  cases hfit
  have hinv := fun n => epochs_inv p.nUserClusters.toNat p.nItemClusters.toNat
    ts (means ts.userRatings) (means ts.itemRatings) n _ _ hucb hicb
  refine ⟨?_, ?_, (hinv _).2.2.1, (hinv _).2.2.2, fun n => ⟨(hinv n).2.2.1, (hinv n).2.2.2⟩⟩
  · show (epochs _ _ _ _ _ _ _ _).1.length = ts.userCount
    rw [(hinv _).1, MakeUniformVectorInt_length]
  · show (epochs _ _ _ _ _ _ _ _).2.1.length = ts.itemCount
    rw [(hinv _).2.1, MakeUniformVectorInt_length]

/-- Witness for C7: the diagonal scenario's fitted labels have one entry
per user. -/
theorem fit_cluster_labels_in_range_witness :
    sDiag.userClusters.length = tsDiag.userCount :=
  (fit_cluster_labels_in_range pTwo tsDiag sDiag (by decide)).1

/-- C8: fit is deterministic: two runs with the same configuration
(including the seed) on the same training set produce identical fitted
state, field by field. -/
theorem fit_deterministic (p : Params) (ts : TrainSet) (s₁ s₂ : CoClustering)
    (h₁ : fit p ts = .ok s₁) (h₂ : fit p ts = .ok s₂) :
    s₁.globalMean = s₂.globalMean ∧ s₁.userMeans = s₂.userMeans ∧
      s₁.itemMeans = s₂.itemMeans ∧ s₁.userClusters = s₂.userClusters ∧
      s₁.itemClusters = s₂.itemClusters ∧
      s₁.userClusterMeans = s₂.userClusterMeans ∧
      s₁.itemClusterMeans = s₂.itemClusterMeans ∧
      s₁.coClusterMeans = s₂.coClusterMeans := by
  rw [h₁] at h₂
  cases h₂
  exact ⟨rfl, rfl, rfl, rfl, rfl, rfl, rfl, rfl⟩

/-- Witness for C8: the single-observation scenario fits to the same state
twice. -/
theorem fit_deterministic_witness :
    sOne.userClusters = sOne.userClusters ∧ sOne.userMeans = sOne.userMeans :=
  ⟨(fit_deterministic pOne tsOne sOne sOne (by decide) (by decide)).2.2.2.1,
    (fit_deterministic pOne tsOne sOne sOne (by decide) (by decide)).2.1⟩

/-- C10: with `n_epochs = 0` on a non-empty training set, the epoch loop
never executes: the cluster mean vectors and matrix remain exactly
zero-filled, the cluster labels retain their seeded initial values, and a
prediction for a known user and known item equals
`user_means[u] + item_means[i]` (the zero statistics cancel).  The
identifier maps are assumed to agree in length with the interned counts, as
the training-set construction guarantees. -/
theorem fit_zero_epochs_state (p : Params) (ts : TrainSet) (s : CoClustering)
    (hz : p.nEpochs = 0) (hfit : fit p ts = .ok s)
    (hwu : ts.userIds.length = ts.userCount)
    (hwi : ts.itemIds.length = ts.itemCount) :
    s.userClusterMeans = List.replicate p.nUserClusters.toNat (some 0) ∧
    s.itemClusterMeans = List.replicate p.nItemClusters.toNat (some 0) ∧
    s.coClusterMeans =
      List.replicate p.nUserClusters.toNat
        (List.replicate p.nItemClusters.toNat (some 0)) ∧
    s.userClusters =
      (MakeUniformVectorInt p.randState ts.userCount 0 p.nUserClusters.toNat).1 ∧
    s.itemClusters =
      (MakeUniformVectorInt
        (MakeUniformVectorInt p.randState ts.userCount 0 p.nUserClusters.toNat).2
        ts.itemCount 0 p.nItemClusters.toNat).1 ∧
    ∀ ue ie u i, toDenseId s.userIdSet ue = some u →
      toDenseId s.itemIdSet ie = some i →
      Predict s ue ie = fAdd (s.userMeans.getD u none) (s.itemMeans.getD i none) := by
  have h0 : p.nEpochs.toNat = 0 := by rw [hz]; rfl
  unfold fit at hfit
  split at hfit
  · exact absurd hfit (by simp)
  rename_i hne
  split at hfit
  · exact absurd hfit (by simp)
  rename_i hvalid
  have hK : 0 < p.nUserClusters.toNat := by
    rcases not_or.mp hvalid with ⟨h1, _⟩
    omega
  have hL : 0 < p.nItemClusters.toNat := by
    rcases not_or.mp hvalid with ⟨_, h2⟩
    rcases not_or.mp h2 with ⟨h2, _⟩
    omega
  cases hfit
  simp only [h0]
  refine ⟨rfl, rfl, rfl, rfl, rfl, ?_⟩
  intro ue ie u i hu hi
  have hult : u < ts.userIds.length := toDenseId_lt ts.userIds ue u hu
  have hilt : i < ts.itemIds.length := toDenseId_lt ts.itemIds ie i hi
  have hulen : u <
      (MakeUniformVectorInt p.randState ts.userCount 0 p.nUserClusters.toNat).1.length := by
    rw [MakeUniformVectorInt_length]
    omega
  have hilen : i <
      (MakeUniformVectorInt
        (MakeUniformVectorInt p.randState ts.userCount 0 p.nUserClusters.toNat).2
        ts.itemCount 0 p.nItemClusters.toNat).1.length := by
    rw [MakeUniformVectorInt_length]
    omega
  have hg : (MakeUniformVectorInt p.randState ts.userCount 0
      p.nUserClusters.toNat).1.getD u 0 < p.nUserClusters.toNat :=
    MakeUniformVectorInt_mem_lt p.nUserClusters.toNat hK p.randState ts.userCount _
      (getD_mem _ u 0 hulen)
  have hh : (MakeUniformVectorInt
      (MakeUniformVectorInt p.randState ts.userCount 0 p.nUserClusters.toNat).2
      ts.itemCount 0 p.nItemClusters.toNat).1.getD i 0 < p.nItemClusters.toNat :=
    MakeUniformVectorInt_mem_lt p.nItemClusters.toNat hL _ ts.itemCount _
      (getD_mem _ i 0 hilen)
  refine predict_reduce _ ue ie u i hu hi ?_ ?_ ?_
  · exact getD_replicate _ _ _ _ hg
  · exact getD_replicate _ _ _ _ hh
  · have hrow : (List.replicate p.nUserClusters.toNat
        (List.replicate p.nItemClusters.toNat (some (0 : ℚ)))).getD
        ((MakeUniformVectorInt p.randState ts.userCount 0
          p.nUserClusters.toNat).1.getD u 0) [] =
        List.replicate p.nItemClusters.toNat (some (0 : ℚ)) :=
      getD_replicate _ _ _ _ hg
    show ((List.replicate p.nUserClusters.toNat
        (List.replicate p.nItemClusters.toNat (some (0 : ℚ)))).getD
        ((MakeUniformVectorInt p.randState ts.userCount 0
          p.nUserClusters.toNat).1.getD u 0) []).getD
        ((MakeUniformVectorInt
          (MakeUniformVectorInt p.randState ts.userCount 0 p.nUserClusters.toNat).2
          ts.itemCount 0 p.nItemClusters.toNat).1.getD i 0) none = some 0
    rw [hrow]
    exact getD_replicate _ _ _ _ hh

/-- Witness for C10: the diagonal scenario fitted with zero epochs keeps
the zero-filled co-cluster means. -/
theorem fit_zero_epochs_state_witness :
    sZero.coClusterMeans = List.replicate 2 (List.replicate 2 (some 0)) :=
  (fit_zero_epochs_state pZero tsDiag sZero rfl (by decide) (by decide)
    (by decide)).2.2.1

end CoClust
